import Mathlib

/-!
Verification of the utility module `lib.js` of the bulk-data-server
repository.  JavaScript values are modelled by the inductive type `JSVal`;
machine strings are Lean `String`s; the external collaborators
(the JSON library `JSON.parse`, the base64url codec, the `jsonwebtoken`
verifier) are passed as explicit function parameters, since the repository
treats them as external libraries.  Every function below is translated from
`lib.js`; functions whose name ends in `Spec` or `SpecOrder` restate a
sentence of the specification for comparison with the translated code.
-/

/-- Model of a JavaScript value, as far as the library functions observe it:
`undefined`, `null`, booleans, (integral) numbers, strings, plain objects
(association lists preserving insertion order) and arrays. -/
inductive JSVal where
  | undef
  | nullv
  | boolean (b : Bool)
  | num (n : Int)
  | str (s : String)
  | obj (fields : List (String × JSVal))
  | arr (elems : List JSVal)

/-- JavaScript truthiness: `undefined`, `null`, `false`, `0` and `""` are
falsy, everything else (including every object and array) is truthy. -/
def truthy : JSVal → Bool
  | .undef => false
  | .nullv => false
  | .boolean b => b
  | .num n => n != 0
  | .str s => s != ""
  | .obj _ => true
  | .arr _ => true

mutual

/-- JavaScript string coercion `String(x)` (resp. `x + ""`), restricted to
the value shapes of `JSVal`; arrays stringify as the comma-joined coercion
of their elements, with `undefined` and `null` elements rendered empty. -/
def jsToString : JSVal → String
  | .undef => "undefined"
  | .nullv => "null"
  | .boolean true => "true"
  | .boolean false => "false"
  | .num n => toString n
  | .str s => s
  | .obj _ => "[object Object]"
  | .arr elems => jsArrToString elems

/-- Comma-joined stringification used by `jsToString` on arrays. -/
def jsArrToString : List JSVal → String
  | [] => ""
  | e :: rest =>
    (match e with
      | JSVal.undef => ""
      | JSVal.nullv => ""
      | v => jsToString v) ++
    (match rest with
      | [] => ""
      | _ :: _ => "," ++ jsArrToString rest)

end

/-- Whitespace predicate used for the JavaScript `trim` and for the leading
whitespace skipped by `parseInt`. -/
def isJsSpace (c : Char) : Bool := c.isWhitespace

/-- Model of JavaScript `String.prototype.trim`. -/
def jsTrim (s : String) : String :=
  String.mk (((s.data.dropWhile isJsSpace).reverse.dropWhile isJsSpace).reverse)

/-- Character-wise lower-casing, modelling the case-insensitivity flag of
the regular expression `RE_FALSE`. -/
def lowerStr (s : String) : String := String.mk (s.data.map Char.toLower)

/-- Model of `String.prototype.replace` with a global single-character
regular expression and a plain replacement string: every occurrence of the
character `c` is replaced by `repl`. -/
def replaceChar (c : Char) (repl : String) (s : String) : String :=
  String.mk (List.flatten (s.data.map fun ch => if ch = c then repl.data else [ch]))

/-- Auxiliary accumulator for `splitChar`. -/
def splitCharAux (sep : Char) : List Char → List Char → List String
  | [], acc => [String.mk acc.reverse]
  | c :: rest, acc =>
    if c = sep then String.mk acc.reverse :: splitCharAux sep rest []
    else splitCharAux sep rest (c :: acc)

/-- Model of JavaScript `String.prototype.split` with a single-character
separator; in particular `split` of the empty string yields `[""]`. -/
def splitChar (sep : Char) (s : String) : List String := splitCharAux sep s.data []

/-- The regular expression `RE_FALSE = /^(0|no|false|off|null|undefined|NaN|)$/i`
from `lib.js` line 13, as a full-match test: the lower-cased input equals one
of the (lower-cased) alternatives. -/
def RE_FALSE_test (s : String) : Bool :=
  lowerStr s == "0" || lowerStr s == "no" || lowerStr s == "false" ||
    lowerStr s == "off" || lowerStr s == "null" || lowerStr s == "undefined" ||
    lowerStr s == "nan" || lowerStr s == ""

/-- `bool(x)` from `lib.js` lines 16-18: `!RE_FALSE.test(String(x).trim())`.
(The source name `bool` is already taken in Lean, hence the `js` prefix.) -/
def jsBool (x : JSVal) : Bool := !(RE_FALSE_test (jsTrim (jsToString x)))

/-- `htmlEncode(html)` from `lib.js` lines 20-27: coerce to string, trim,
then globally replace ampersand, less-than, greater-than and double quote,
in that order. -/
def htmlEncode (html : JSVal) : String :=
  replaceChar '"' "&quot;"
    (replaceChar '>' "&gt;"
      (replaceChar '<' "&lt;"
        (replaceChar '&' "&amp;" (jsTrim (jsToString html)))))

/-- JavaScript `typeof v === "object"`, which is true for plain objects,
arrays and also `null`. -/
def jsTypeofIsObject : JSVal → Bool
  | .nullv => true
  | .obj _ => true
  | .arr _ => true
  | _ => false

/-- A value that is an object in the sense of the specification of
`decodeArgs`: a plain object or an array (so not `null`). -/
def isObjectValue : JSVal → Bool
  | .obj _ => true
  | .arr _ => true
  | _ => false

/-- `decodeArgs(inputString)` from `lib.js` lines 34-48.  The external
collaborators are parameters: `jsonParse` models `JSON.parse` (`none` models
a thrown parse error) and `b64decode` models `base64url.decode` (total; a
decoder throw can be folded into `jsonParse` returning `none`).  The
`try`/`catch` sets `args` to `null` on failure and the `finally` block
replaces any falsy or non-`typeof`-`"object"` result by `{}` (`.obj []`). -/
def decodeArgs (jsonParse : String → Option JSVal) (b64decode : String → String)
    (inputString : String) : JSVal :=
  let args := match jsonParse (b64decode inputString) with
    | some v => v
    | none => JSVal.nullv
  if !(truthy args) || !(jsTypeofIsObject args) then JSVal.obj [] else args

/-- The value returned by the replacer callback of `printf` (`lib.js` lines
276-280) for the `k`-th match (1-based), stringified: the callback is
`a => ++i > l ? "" : args[i]` where `args` is the `arguments` object
(`args[0]` is the template itself and `l = args.length = rest.length + 1`),
and `String.prototype.replace` coerces the callback result with `String`,
so an out-of-bounds `args[i]` (which is `undefined`) renders as
`"undefined"`. -/
def printfRepl (rest : List String) (k : Nat) : String :=
  if k > rest.length + 1 then ""
  else
    match rest.get? (k - 1) with
    | some a => a
    | none => "undefined"

/-- Scan modelling `String.prototype.replace(/(%s)/g, cb)`: the characters
are traversed left to right, each non-overlapping occurrence of `"%s"` is
replaced by `repl` applied to the 1-based match number, and all other
characters are kept. -/
def scanPercentS (repl : Nat → String) : Nat → List Char → List Char
  | _, [] => []
  | _, [c] => [c]
  | k, c1 :: c2 :: tail =>
    if c1 == '%' && c2 == 's' then (repl (k + 1)).data ++ scanPercentS repl (k + 1) tail
    else c1 :: scanPercentS repl k (c2 :: tail)

/-- `printf(s, ...rest)` from `lib.js` lines 276-280. -/
def printf (s : String) (rest : List String) : String :=
  String.mk (scanPercentS (printfRepl rest) 0 s.data)

/-- Replacement value for the `k`-th `%s` token as the amended specification
describes it: the `k`-th argument while arguments last, then `"undefined"`
for the first missing argument, then the empty string. -/
def printfSpecRepl (rest : List String) (k : Nat) : String :=
  if h : k - 1 < rest.length then rest.get ⟨k - 1, h⟩
  else if k = rest.length + 1 then "undefined"
  else ""

/-- The amended specification of `printf`, sharing only the scanning model
with the implementation. -/
def printfSpec (s : String) (rest : List String) : String :=
  String.mk (scanPercentS (printfSpecRepl rest) 0 s.data)

/-- Longest digit prefix of a character list read as a decimal number;
`none` when the first character is not a digit (modelling `NaN`). -/
def digitsPrefixVal (cs : List Char) : Option Nat :=
  let ds := cs.takeWhile Char.isDigit
  if ds.isEmpty then none
  else some (ds.foldl (fun acc c => acc * 10 + (c.toNat - 48)) 0)

/-- Model of JavaScript `parseInt(s, 10)`: skip leading whitespace, read an
optional sign and then the longest digit prefix; `none` models `NaN`.  (In
this model a parsed number is always a finite integer, so the `isFinite`
test of `uInt` cannot fail.) -/
def parseIntJS (s : String) : Option Int :=
  match s.data.dropWhile isJsSpace with
  | '+' :: rest => (digitsPrefixVal rest).map (fun n => (n : Int))
  | '-' :: rest => (digitsPrefixVal rest).map (fun n => -(n : Int))
  | rest => (digitsPrefixVal rest).map (fun n => (n : Int))

/-- Fuel-indexed model of `uInt(x, defaultValue)` from `lib.js` lines
317-323.  The recursion of the source, `x = uInt(defaultValue, 0)`, is
modelled with explicit fuel; `uIntFuel_fuel_irrelevant` below proves that
three units of fuel always suffice, which is the termination argument for
the source recursion. -/
def uIntFuel : Nat → JSVal → JSVal → Int
  | 0, _, _ => 0
  | fuel + 1, x, d =>
    match parseIntJS (jsToString x) with
    | some n => if n < 0 then uIntFuel fuel d (JSVal.num 0) else n
    | none => uIntFuel fuel d (JSVal.num 0)

/-- `uInt(x, defaultValue)` from `lib.js` lines 317-323 (the source default
for `defaultValue` is the number `0`). -/
def uInt (x d : JSVal) : Int := uIntFuel 3 x d

/-- Errors thrown by `parseToken`: the two explicit validation errors of the
source, and a propagated `JSON.parse` failure. -/
inductive TokenError where
  | validation (message : String)
  | jsonParse

/-- `parseToken(token)` from `lib.js` lines 291-304: reject non-strings and
strings that do not split on `"."` into exactly three segments, otherwise
base64-decode the middle segment and JSON-parse it, propagating a parse
failure. -/
def parseToken (jsonParse : String → Option JSVal) (b64decode : String → String)
    (token : JSVal) : Except TokenError JSVal :=
  match token with
  | .str s =>
    if (splitChar '.' s).length ≠ 3 then
      Except.error (TokenError.validation "Invalid token structure")
    else
      match jsonParse (b64decode (((splitChar '.' s).get? 1).getD "")) with
      | some v => Except.ok v
      | none => Except.error TokenError.jsonParse
  | _ => Except.error (TokenError.validation "The token must be a string")

/-- JavaScript property access `v[key]` as observed by `getPath`: lookup in
an object, numeric indexing in an array, `undefined` otherwise. -/
def getProp (v : JSVal) (key : String) : JSVal :=
  match v with
  | .obj fields => (fields.lookup key).getD JSVal.undef
  | .arr elems =>
    match key.toNat? with
    | some i => (elems.get? i).getD JSVal.undef
    | none => JSVal.undef
  | _ => JSVal.undef

/-- One step of the reducer of `getPath` (`lib.js` line 196):
`(out, key) => out ? out[key] : undefined`. -/
def getPathStep (out : JSVal) (key : String) : JSVal :=
  if truthy out then getProp out key else JSVal.undef

/-- `getPath(obj, path)` from `lib.js` lines 194-197 (the source default for
`path` is `""`). -/
def getPath (obj : JSVal) (path : String) : JSVal :=
  (splitChar '.' path).foldl getPathStep obj

/-- Result of the external `jwt.verify` call inside `checkAuth`: either the
decoded payload, or a thrown error carrying `name` and `message` fields. -/
inductive VerifyResult where
  | ok (payload : JSVal)
  | failed (name : JSVal) (message : JSVal)

/-- Outcome of the `checkAuth` middleware: either the `next()` handler is
invoked (and no response is written), or a response with the given status
and body is sent. -/
inductive AuthOutcome where
  | next
  | reject (status : Nat) (body : JSVal)

/-- JavaScript `a || b`. -/
def jsOr (a b : JSVal) : JSVal := if truthy a then a else b

/-- `checkAuth(req, res, next)` from `lib.js` lines 236-256.  `verify`
models `jwt.verify(-, config.jwtSecret)` applied to
`req.headers.authorization.split(" ")[1]` (`none` models `undefined`), and
`authorization` is the request's authorization header (`JSVal.undef` when
the header is absent). -/
def checkAuth (verify : Option String → VerifyResult) (authorization : JSVal) : AuthOutcome :=
  if truthy authorization then
    match verify ((splitChar ' ' (jsToString authorization)).get? 1) with
    | .failed name message =>
      AuthOutcome.reject 401 (JSVal.str
        (jsToString (jsOr name (JSVal.str "Error")) ++ ": " ++
          jsToString (jsOr message (JSVal.str "Invalid token"))))
    | .ok token =>
      let e := jsOr (getProp token "err")
        (jsOr (getProp token "sim_error") (getProp token "auth_error"))
      if truthy e then AuthOutcome.reject 401 e else AuthOutcome.next
  else AuthOutcome.next

/-- Auxiliary: the scan underlying `printf` only queries the replacement
function at positive match numbers, so two replacement functions that agree
on all positive numbers yield the same scan result. -/
theorem scanPercentS_congr (f g : Nat → String) (h : ∀ j, 1 ≤ j → f j = g j) :
    ∀ (cs : List Char) (k : Nat), scanPercentS f k cs = scanPercentS g k cs
  | [], _ => rfl
  | [_], _ => rfl
  | c1 :: c2 :: tail, k => by
    have ih1 := scanPercentS_congr f g h tail (k + 1)
    have ih2 := scanPercentS_congr f g h (c2 :: tail) k
    simp only [scanPercentS]
    by_cases hc : (c1 == '%' && c2 == 's') = true
    · rw [if_pos hc, if_pos hc, h (k + 1) (by omega), ih1]
    · rw [if_neg hc, if_neg hc, ih2]

/-- Auxiliary: at every positive match number the replacement computed by the
implementation equals the replacement described by the amended
specification. -/
theorem printfRepl_eq_spec (rest : List String) (k : Nat) (hk : 1 ≤ k) :
    printfRepl rest k = printfSpecRepl rest k := by
  unfold printfRepl printfSpecRepl
  by_cases h1 : k - 1 < rest.length
  · rw [dif_pos h1, if_neg (by omega), List.get?_eq_get h1]
  · by_cases h2 : k = rest.length + 1
    · rw [dif_neg h1, if_neg (by omega), if_pos h2, List.get?_eq_none.mpr (by omega)]
    · rw [dif_neg h1, if_pos (by omega), if_neg h2]

/-- C1 (amended): `printf` replaces the `%s` tokens left to right with the
successive arguments; the first `%s` token with no corresponding argument is
replaced by the string `"undefined"` (not by the empty string), and only the
`%s` tokens after that one are replaced by the empty string; in particular
`printf("%s and %s", "x")` returns `"x and undefined"`. -/
theorem printf_missing_args :
    (∀ (s : String) (rest : List String), printf s rest = printfSpec s rest) ∧
    printf "%s and %s" ["x"] = "x and undefined" := by
  refine ⟨fun s rest => ?_, rfl⟩
  unfold printf printfSpec
  rw [scanPercentS_congr (printfRepl rest) (printfSpecRepl rest)
    (fun j hj => printfRepl_eq_spec rest j hj) s.data 0]

/-- C1, counterexample to the claim as stated: `printf("%s and %s", "x")`
does not return `"x and "` (it returns `"x and undefined"`). -/
theorem printf_missing_args_counterexample : printf "%s and %s" ["x"] ≠ "x and " := by
  decide

/-- C2: a request whose headers contain no authorization entry (the header
is `undefined`) is allowed through unconditionally: `checkAuth` invokes the
`next` handler and writes no response, whatever the verifier would do. -/
theorem checkAuth_no_authorization (verify : Option String → VerifyResult) :
    checkAuth verify JSVal.undef = AuthOutcome.next := rfl

/-- C3: when the authorization header is present and the token verifies
successfully, `checkAuth` inspects the decoded payload's fields `err`,
`sim_error` and `auth_error` in that priority order: the first truthy one is
sent back as the body of an HTTP 401 response, and if none is truthy the
`next` handler is invoked. -/
theorem checkAuth_verified (verify : Option String → VerifyResult) (auth payload : JSVal)
    (hauth : truthy auth = true)
    (hver : verify ((splitChar ' ' (jsToString auth)).get? 1) = VerifyResult.ok payload) :
    (truthy (getProp payload "err") = true →
      checkAuth verify auth = AuthOutcome.reject 401 (getProp payload "err")) ∧
    (truthy (getProp payload "err") = false →
      truthy (getProp payload "sim_error") = true →
      checkAuth verify auth = AuthOutcome.reject 401 (getProp payload "sim_error")) ∧
    (truthy (getProp payload "err") = false →
      truthy (getProp payload "sim_error") = false →
      truthy (getProp payload "auth_error") = true →
      checkAuth verify auth = AuthOutcome.reject 401 (getProp payload "auth_error")) ∧
    (truthy (getProp payload "err") = false →
      truthy (getProp payload "sim_error") = false →
      truthy (getProp payload "auth_error") = false →
      checkAuth verify auth = AuthOutcome.next) := by
  have hrun : checkAuth verify auth =
      (if truthy (jsOr (getProp payload "err")
          (jsOr (getProp payload "sim_error") (getProp payload "auth_error")))
        then AuthOutcome.reject 401 (jsOr (getProp payload "err")
          (jsOr (getProp payload "sim_error") (getProp payload "auth_error")))
        else AuthOutcome.next) := by
    unfold checkAuth
    rw [hauth, hver]
    rfl
  refine ⟨fun h1 => ?_, fun h1 h2 => ?_, fun h1 h2 h3 => ?_, fun h1 h2 h3 => ?_⟩
  · rw [hrun]; simp [jsOr, h1]
  · rw [hrun]; simp [jsOr, h1, h2]
  · rw [hrun]; simp [jsOr, h1, h2, h3]
  · rw [hrun]; simp [jsOr, h1, h2, h3]

/-- Witness for C3: a validly verified token whose payload carries
`sim_error: "boom"` is rejected with status 401 and body `"boom"`. -/
theorem checkAuth_verified_witness :
    checkAuth (fun _ => VerifyResult.ok (JSVal.obj [("sim_error", JSVal.str "boom")]))
      (JSVal.str "Bearer a.b.c") = AuthOutcome.reject 401 (JSVal.str "boom") := by
  have h := checkAuth_verified
    (fun _ => VerifyResult.ok (JSVal.obj [("sim_error", JSVal.str "boom")]))
    (JSVal.str "Bearer a.b.c") (JSVal.obj [("sim_error", JSVal.str "boom")])
    (by decide) rfl
  exact h.2.1 (by decide) (by decide)

/-- C4: `decodeArgs` never raises (it is a total function of this model):
when the external decode or parse fails it returns the empty mapping, when
the parsed value is not an object (`null` included) it returns the empty
mapping, and otherwise it returns the parsed object. -/
theorem decodeArgs_safe (jsonParse : String → Option JSVal) (b64decode : String → String)
    (s : String) :
    (jsonParse (b64decode s) = none → decodeArgs jsonParse b64decode s = JSVal.obj []) ∧
    (∀ v, jsonParse (b64decode s) = some v → isObjectValue v = false →
      decodeArgs jsonParse b64decode s = JSVal.obj []) ∧
    (∀ v, jsonParse (b64decode s) = some v → isObjectValue v = true →
      decodeArgs jsonParse b64decode s = v) := by
  refine ⟨fun h => ?_, fun v h hv => ?_, fun v h hv => ?_⟩
  · unfold decodeArgs; rw [h]; rfl
  · unfold decodeArgs; rw [h]
    cases v <;> simp_all [isObjectValue, truthy, jsTypeofIsObject]
  · unfold decodeArgs; rw [h]
    cases v <;> simp_all [isObjectValue, truthy, jsTypeofIsObject]

/-- Witness for C4: a blob that decodes and parses to the object `{a: 1}`
is returned unchanged. -/
theorem decodeArgs_safe_witness :
    decodeArgs (fun t => if t = "decoded" then some (JSVal.obj [("a", JSVal.num 1)]) else none)
      (fun t => if t = "blob" then "decoded" else "") "blob" =
      JSVal.obj [("a", JSVal.num 1)] :=
  (decodeArgs_safe (fun t => if t = "decoded" then some (JSVal.obj [("a", JSVal.num 1)]) else none)
    (fun t => if t = "blob" then "decoded" else "") "blob").2.2
    (JSVal.obj [("a", JSVal.num 1)]) rfl rfl

/-- C5: round-trip.  For every plain mapping `fields`, whenever the external
base64url codec and JSON library round-trip on it (hypothesis `h`, which
holds of the real collaborators for every JSON-serializable plain mapping),
`decodeArgs` applied to the encoding of the mapping returns the mapping. -/
theorem decodeArgs_roundtrip (jsonParse : String → Option JSVal) (b64decode : String → String)
    (encode : JSVal → String) (fields : List (String × JSVal))
    (h : jsonParse (b64decode (encode (JSVal.obj fields))) = some (JSVal.obj fields)) :
    decodeArgs jsonParse b64decode (encode (JSVal.obj fields)) = JSVal.obj fields := by
  unfold decodeArgs; rw [h]; rfl

/-- Witness for C5 at a concrete mapping and concrete round-tripping
collaborators. -/
theorem decodeArgs_roundtrip_witness :
    decodeArgs (fun t => if t = "enc" then some (JSVal.obj [("a", JSVal.num 1)]) else none)
      (fun t => t) ((fun _ => "enc") (JSVal.obj [("a", JSVal.num 1)])) =
      JSVal.obj [("a", JSVal.num 1)] :=
  decodeArgs_roundtrip (fun t => if t = "enc" then some (JSVal.obj [("a", JSVal.num 1)]) else none)
    (fun t => t) (fun _ => "enc") [("a", JSVal.num 1)] rfl

/-- C6: `bool(x)` coerces its input to a string and trims it, and returns
`false` exactly when the trimmed string is, case-insensitively, one of
`"0"`, `"no"`, `"false"`, `"off"`, `"null"`, `"undefined"`, `"NaN"` or the
empty string, and `true` for every other string. -/
theorem jsBool_false_iff (x : JSVal) :
    jsBool x = false ↔
      ∃ t ∈ ["0", "no", "false", "off", "null", "undefined", "NaN", ""],
        lowerStr (jsTrim (jsToString x)) = lowerStr t := by
  have hnot : ∀ b : Bool, ((!b) = false) ↔ (b = true) := by decide
  unfold jsBool RE_FALSE_test
  rw [hnot]
  constructor
  · intro h
    simp only [Bool.or_eq_true, beq_iff_eq] at h
    rcases h with ((((((h | h) | h) | h) | h) | h) | h) | h
    · exact ⟨"0", by simp, h.trans (by decide)⟩
    · exact ⟨"no", by simp, h.trans (by decide)⟩
    · exact ⟨"false", by simp, h.trans (by decide)⟩
    · exact ⟨"off", by simp, h.trans (by decide)⟩
    · exact ⟨"null", by simp, h.trans (by decide)⟩
    · exact ⟨"undefined", by simp, h.trans (by decide)⟩
    · exact ⟨"NaN", by simp, h.trans (by decide)⟩
    · exact ⟨"", by simp, h.trans (by decide)⟩
  · rintro ⟨t, ht, hu⟩
    simp only [List.mem_cons, List.not_mem_nil, or_false] at ht
    rcases ht with rfl | rfl | rfl | rfl | rfl | rfl | rfl | rfl <;>
      rw [hu] <;> decide

/-- C7: `htmlEncode` trims its input and then performs the global
substitutions in the fixed order ampersand, less-than, greater-than, double
quote; on the example of the specification no entity introduced by a later
substitution is re-escaped. -/
theorem htmlEncode_order (s : String) :
    htmlEncode (JSVal.str s) =
      replaceChar '"' "&quot;"
        (replaceChar '>' "&gt;"
          (replaceChar '<' "&lt;"
            (replaceChar '&' "&amp;" (jsTrim s)))) ∧
    htmlEncode (JSVal.str "<a href=\"x\">&</a>") =
      "&lt;a href=&quot;x&quot;&gt;&amp;&lt;/a&gt;" :=
  ⟨rfl, by decide⟩

/-- Auxiliary: with the number `0` as first argument, `uInt` returns `0`
without consuming fuel beyond the first level, because `parseInt("0", 10)`
is `0`, which is finite and non-negative. -/
theorem uIntFuel_zero_first (fuel : Nat) (d : JSVal) :
    uIntFuel fuel (JSVal.num 0) d = 0 := by
  cases fuel <;> rfl

/-- Auxiliary: with the number `0` as default, one unit of fuel after the
first level suffices: the second recursive call (if any) starts from the
number `0` and returns `0` immediately. -/
theorem uIntFuel_default (d : JSVal) (f : Nat) (h : 1 ≤ f) :
    uIntFuel f d (JSVal.num 0) = uIntFuel 1 d (JSVal.num 0) := by
  cases f with
  | zero => omega
  | succ g =>
    show (match parseIntJS (jsToString d) with
      | some n => if n < 0 then uIntFuel g (JSVal.num 0) (JSVal.num 0) else n
      | none => uIntFuel g (JSVal.num 0) (JSVal.num 0)) =
      (match parseIntJS (jsToString d) with
      | some n => if n < 0 then uIntFuel 0 (JSVal.num 0) (JSVal.num 0) else n
      | none => uIntFuel 0 (JSVal.num 0) (JSVal.num 0))
    cases parseIntJS (jsToString d) with
    | none => simp only [uIntFuel_zero_first]
    | some n => simp only [uIntFuel_zero_first]

/-- Auxiliary: two units of fuel always suffice for `uIntFuel`. -/
theorem uIntFuel_ge_two (x d : JSVal) (f : Nat) (h : 2 ≤ f) :
    uIntFuel f x d = uIntFuel 2 x d := by
  cases f with
  | zero => omega
  | succ g =>
    show (match parseIntJS (jsToString x) with
      | some n => if n < 0 then uIntFuel g d (JSVal.num 0) else n
      | none => uIntFuel g d (JSVal.num 0)) =
      (match parseIntJS (jsToString x) with
      | some n => if n < 0 then uIntFuel 1 d (JSVal.num 0) else n
      | none => uIntFuel 1 d (JSVal.num 0))
    have hg : uIntFuel g d (JSVal.num 0) = uIntFuel 1 d (JSVal.num 0) :=
      uIntFuel_default d g (by omega)
    cases parseIntJS (jsToString x) with
    | none => exact hg
    | some n => rw [hg]

/-- Auxiliary: every `uIntFuel` result is non-negative. -/
theorem uIntFuel_nonneg : ∀ (f : Nat) (x d : JSVal), 0 ≤ uIntFuel f x d
  | 0, _, _ => le_refl 0
  | f + 1, x, d => by
    have ih := uIntFuel_nonneg f d (JSVal.num 0)
    show (0 : Int) ≤ (match parseIntJS (jsToString x) with
      | some n => if n < 0 then uIntFuel f d (JSVal.num 0) else n
      | none => uIntFuel f d (JSVal.num 0))
    cases parseIntJS (jsToString x) with
    | none => exact ih
    | some n =>
      by_cases hn : n < 0
      · simp only [if_pos hn]; exact ih
      · simp only [if_neg hn]; omega

/-- C8: `uInt` terminates (any fuel from three units up gives the value of
the source recursion) and always returns a finite non-negative integer, and
on the specification's examples `uInt("-5", 3) = 3`, `uInt("7.9") = 7` (the
source default for the second argument is the number `0`) and
`uInt("abc", "xyz") = 0`. -/
theorem uInt_contract :
    (∀ (x d : JSVal) (fuel : Nat), 3 ≤ fuel → uIntFuel fuel x d = uInt x d) ∧
    (∀ x d : JSVal, 0 ≤ uInt x d) ∧
    uInt (JSVal.str "-5") (JSVal.num 3) = 3 ∧
    uInt (JSVal.str "7.9") (JSVal.num 0) = 7 ∧
    uInt (JSVal.str "abc") (JSVal.str "xyz") = 0 := by
  refine ⟨fun x d fuel hf => ?_, fun x d => uIntFuel_nonneg 3 x d, by decide, by decide, by decide⟩
  unfold uInt
  rw [uIntFuel_ge_two x d fuel (by omega), uIntFuel_ge_two x d 3 (by omega)]

/-- Witness for C8: the termination and non-negativity parts applied at the
concrete input `uInt("-5", 3)` with five units of fuel. -/
theorem uInt_contract_witness :
    uIntFuel 5 (JSVal.str "-5") (JSVal.num 3) = uInt (JSVal.str "-5") (JSVal.num 3) ∧
    0 ≤ uInt (JSVal.str "-5") (JSVal.num 3) :=
  ⟨uInt_contract.1 (JSVal.str "-5") (JSVal.num 3) 5 (by omega),
    uInt_contract.2.1 (JSVal.str "-5") (JSVal.num 3)⟩

/-- C9: `parseToken` throws a validation error exactly when its input is not
a string or does not split on `"."` into exactly three segments; on every
well-formed three-segment input it base64-decodes the middle segment and
returns the result of JSON-parsing it, propagating a JSON-parse failure
(modelled by `TokenError.jsonParse`) to the caller. -/
theorem parseToken_spec (jsonParse : String → Option JSVal) (b64decode : String → String)
    (token : JSVal) :
    ((∃ msg, parseToken jsonParse b64decode token = Except.error (TokenError.validation msg)) ↔
      (∀ s, token ≠ JSVal.str s) ∨
        (∃ s, token = JSVal.str s ∧ (splitChar '.' s).length ≠ 3)) ∧
    (∀ s, token = JSVal.str s → (splitChar '.' s).length = 3 →
      parseToken jsonParse b64decode token =
        match jsonParse (b64decode (((splitChar '.' s).get? 1).getD "")) with
        | some v => Except.ok v
        | none => Except.error TokenError.jsonParse) := by
  constructor
  · cases token with
    | str s =>
      by_cases h3 : (splitChar '.' s).length = 3
      · have hred : parseToken jsonParse b64decode (JSVal.str s) =
            match jsonParse (b64decode (((splitChar '.' s).get? 1).getD "")) with
            | some v => Except.ok v
            | none => Except.error TokenError.jsonParse := by
          simp only [parseToken]
          rw [if_neg (not_not_intro h3)]
        constructor
        · rintro ⟨msg, hmsg⟩
          rw [hred] at hmsg
          cases hp : jsonParse (b64decode (((splitChar '.' s).get? 1).getD "")) <;>
            rw [hp] at hmsg <;> simp at hmsg
        · rintro (hleft | ⟨s2, heq, hne⟩)
          · exact absurd rfl (hleft s)
          · injection heq with hs
            exact absurd h3 (hs ▸ hne)
      · constructor
        · intro _
          exact Or.inr ⟨s, rfl, h3⟩
        · intro _
          refine ⟨"Invalid token structure", ?_⟩
          simp only [parseToken]
          rw [if_pos h3]
    | undef =>
      exact ⟨fun _ => Or.inl fun s h => JSVal.noConfusion h,
        fun _ => ⟨"The token must be a string", rfl⟩⟩
    | nullv =>
      exact ⟨fun _ => Or.inl fun s h => JSVal.noConfusion h,
        fun _ => ⟨"The token must be a string", rfl⟩⟩
    | boolean b =>
      exact ⟨fun _ => Or.inl fun s h => JSVal.noConfusion h,
        fun _ => ⟨"The token must be a string", rfl⟩⟩
    | num n =>
      exact ⟨fun _ => Or.inl fun s h => JSVal.noConfusion h,
        fun _ => ⟨"The token must be a string", rfl⟩⟩
    | obj fields =>
      exact ⟨fun _ => Or.inl fun s h => JSVal.noConfusion h,
        fun _ => ⟨"The token must be a string", rfl⟩⟩
    | arr elems =>
      exact ⟨fun _ => Or.inl fun s h => JSVal.noConfusion h,
        fun _ => ⟨"The token must be a string", rfl⟩⟩
  · intro s heq h3
    subst heq
    simp only [parseToken]
    rw [if_neg (not_not_intro h3)]

/-- Witness for C9: the well-formed token `"a.b.c"` whose middle segment
decodes and parses to the number `42` is parsed successfully. -/
theorem parseToken_spec_witness :
    parseToken (fun t => if t = "PAYLOAD" then some (JSVal.num 42) else none)
      (fun t => if t = "b" then "PAYLOAD" else "") (JSVal.str "a.b.c") =
      Except.ok (JSVal.num 42) := by
  have h := (parseToken_spec (fun t => if t = "PAYLOAD" then some (JSVal.num 42) else none)
    (fun t => if t = "b" then "PAYLOAD" else "") (JSVal.str "a.b.c")).2 "a.b.c" rfl (by decide)
  exact h.trans rfl

/-- Auxiliary: once the reducer of `getPath` reaches a falsy accumulator
with at least one key still to process, the final result is `undefined`. -/
theorem foldl_getPathStep_falsy (keys : List String) (out : JSVal)
    (hout : truthy out = false) (hne : keys ≠ []) :
    keys.foldl getPathStep out = JSVal.undef := by
  induction keys generalizing out with
  | nil => exact absurd rfl hne
  | cons key rest ih =>
    rw [List.foldl_cons]
    have hstep : getPathStep out key = JSVal.undef := by
      simp [getPathStep, hout]
    rw [hstep]
    cases rest with
    | nil => rfl
    | cons b bs => exact ih JSVal.undef rfl (by simp)

/-- C10: `getPath` never throws (it is a total function of this model); it
walks the dot-separated keys left to right and whenever some intermediate
value along the path (the fold over a proper prefix of the keys) is falsy
the overall result is `undefined`; and with the default empty path it
returns `obj[""]` (property `""` of a truthy `obj`), not `obj` itself. -/
theorem getPath_spec (obj : JSVal) (path : String) :
    (∀ i, i < (splitChar '.' path).length →
      truthy (((splitChar '.' path).take i).foldl getPathStep obj) = false →
      getPath obj path = JSVal.undef) ∧
    (truthy obj = true → getPath obj "" = getProp obj "") := by
  constructor
  · intro i hi hfalsy
    unfold getPath
    rw [← List.take_append_drop i (splitChar '.' path), List.foldl_append]
    apply foldl_getPathStep_falsy _ _ hfalsy
    intro hnil
    have hlen := congrArg List.length hnil
    rw [List.length_drop, List.length_nil] at hlen
    omega
  · intro htruthy
    have hsplit : splitChar '.' "" = [""] := rfl
    unfold getPath
    rw [hsplit, List.foldl_cons, List.foldl_nil]
    simp [getPathStep, htruthy]

/-- Witness for C10: in `{a: null}` the path `"a.b"` hits the falsy
intermediate value `null`, so the result is `undefined`; and on the truthy
object `{}` the empty path returns property `""`. -/
theorem getPath_spec_witness :
    getPath (JSVal.obj [("a", JSVal.nullv)]) "a.b" = JSVal.undef ∧
    getPath (JSVal.obj []) "" = getProp (JSVal.obj []) "" :=
  ⟨(getPath_spec (JSVal.obj [("a", JSVal.nullv)]) "a.b").1 1 (by decide) (by decide),
    (getPath_spec (JSVal.obj []) "").2 rfl⟩
